import Mathlib

/-!
Shallow embedding of the k8s-slack-searcher core (ingestion pipeline,
normalized SQLite store with FTS index, query engine, thread
reconstruction) together with proofs settling the specification claims.

Machine integers (Go `int`, `int64`, SQLite INTEGER) are modelled as
`Int`/`Nat`; Go `time.Time` values are modelled by their Unix-seconds
value (`Int`), which is all the code ever derives from them
(`time.Unix(seconds, 0)` and midnight-UTC dates from `time.Parse`).
Fallible operations return `Except`/`Option`; the SQLite medium's
availability is an explicit boolean on the store.
-/

/-! ## String helpers (Go `strings` package semantics) -/

/-- Splitting a character list at every dot, Go `strings.Split(ts, ".")`:
the result always has one more part than the number of dots. -/
def splitOnDot : List Char → List (List Char)
  | [] => [[]]
  | c :: rest =>
    let r := splitOnDot rest
    if c = '.' then [] :: r
    else
      match r with
      | [] => [[c]]
      | h :: t => (c :: h) :: t

/-- Go `strings.TrimSuffix(s, suffix)` on character lists. -/
def trimSuffixL (cs suf : List Char) : List Char :=
  if suf.isSuffixOf cs then cs.take (cs.length - suf.length) else cs

/-- Go `unicode.IsSpace`: the White_Space code points. -/
def goIsSpace (c : Char) : Bool :=
  c = '\t' || c = '\n' || c = Char.ofNat 11 || c = Char.ofNat 12 || c = '\r' ||
  c = ' ' || c = Char.ofNat 0x85 || c = Char.ofNat 0xA0 || c = Char.ofNat 0x1680 ||
  (0x2000 ≤ c.toNat && c.toNat ≤ 0x200A) || c = Char.ofNat 0x2028 ||
  c = Char.ofNat 0x2029 || c = Char.ofNat 0x202F || c = Char.ofNat 0x205F ||
  c = Char.ofNat 0x3000

/-- Go `strings.TrimSpace`: drop leading and trailing white space. -/
def goTrimSpace (s : String) : String :=
  ⟨((s.data.dropWhile goIsSpace).reverse.dropWhile goIsSpace).reverse⟩

/-! ## Timestamp parsing (`parseSlackTimestamp` and the filename date) -/

/-- Value of a decimal digit character, `none` for a non-digit. -/
def digitVal (c : Char) : Option Nat :=
  if c.isDigit then some (c.toNat - '0'.toNat) else none

/-- Accumulating decimal digit parser; fails on the first non-digit. -/
def parseDigitsAux (acc : Nat) : List Char → Option Nat
  | [] => some acc
  | c :: rest =>
    match digitVal c with
    | some d => parseDigitsAux (acc * 10 + d) rest
    | none => none

/-- Parse a non-empty all-digit character list as a natural number. -/
def parseDigits : List Char → Option Nat
  | [] => none
  | cs => parseDigitsAux 0 cs

/-- Go `strconv.ParseInt(s, 10, 64)`: optional sign, non-empty digit
run, result must fit in a signed 64-bit integer. -/
def parseInt64 (cs : List Char) : Option Int :=
  match cs with
  | [] => none
  | '+' :: rest =>
    match parseDigits rest with
    | some n => if n ≤ 2 ^ 63 - 1 then some (n : Int) else none
    | none => none
  | '-' :: rest =>
    match parseDigits rest with
    | some n => if n ≤ 2 ^ 63 then some (-(n : Int)) else none
    | none => none
  | _ =>
    match parseDigits cs with
    | some n => if n ≤ 2 ^ 63 - 1 then some (n : Int) else none
    | none => none

/-- `parseSlackTimestamp` from `pkg/indexer/indexer.go`: split the token
on dots, require exactly two parts, parse the first as int64 seconds and
return `time.Unix(seconds, 0)` (modelled by its Unix-seconds value).
The fractional part is never inspected. -/
def parseSlackTimestamp (ts : String) : Option Int :=
  match splitOnDot ts.data with
  | [secPart, _] => parseInt64 secPart
  | _ => none

/-- Gregorian leap-year rule used by Go `time`. -/
def isLeapYear (y : Int) : Bool :=
  y % 4 = 0 && (y % 100 ≠ 0 || y % 400 = 0)

/-- Number of days in a month of a given year. -/
def daysInMonth (y m : Int) : Int :=
  if m = 2 then (if isLeapYear y then 29 else 28)
  else if m = 4 || m = 6 || m = 9 || m = 11 then 30
  else 31

/-- Days since the Unix epoch of a civil date (standard civil-from-days
inverse; all divisions below act on non-negative operands for the years
a four-digit filename can denote). -/
def daysFromCivil (y m d : Int) : Int :=
  let y2 : Int := if m ≤ 2 then y - 1 else y
  let era : Int := (if 0 ≤ y2 then y2 else y2 - 399) / 400
  let yoe : Int := y2 - era * 400
  let mp : Int := (m + 9) % 12
  let doy : Int := (153 * mp + 2) / 5 + d - 1
  let doe : Int := yoe * 365 + yoe / 4 - yoe / 100 + doy
  era * 146097 + doe - 719468

/-- Go `time.Parse("2006-01-02", s)`: fixed-width `YYYY-MM-DD`, all
digits, month and day validated; result is midnight UTC, modelled by
its Unix-seconds value. -/
def goTimeParseDate (cs : List Char) : Option Int :=
  match cs with
  | [y1, y2, y3, y4, s1, m1, m2, s2, d1, d2] =>
    if s1 = '-' && s2 = '-' then
      match digitVal y1, digitVal y2, digitVal y3, digitVal y4,
            digitVal m1, digitVal m2, digitVal d1, digitVal d2 with
      | some a, some b, some c, some d, some e, some f, some g, some h =>
        let year : Int := ((a * 10 + b) * 10 + c) * 10 + d
        let month : Int := e * 10 + f
        let day : Int := g * 10 + h
        if 1 ≤ month && month ≤ 12 && 1 ≤ day && day ≤ daysInMonth year month then
          some (daysFromCivil year month day * 86400)
        else none
      | _, _, _, _, _, _, _, _ => none
    else none
  | _ => none

/-- Date extraction in `processMessageFile`: trim the `.json` suffix
from the batch filename and parse the rest as `YYYY-MM-DD`. -/
def parseFileDate (filename : String) : Option Int :=
  goTimeParseDate (trimSuffixL filename.data ".json".data)


/-! ## Data model (`pkg/models/models.go`) -/

/-- A Slack user record (`models.User`). -/
structure User where
  id : String
  name : String
  realName : String
  displayName : String
  isBot : Bool
  deleted : Bool
deriving DecidableEq

/-- The nested profile object in the users file (`models.Profile`). -/
structure Profile where
  realName : String
  displayName : String
deriving DecidableEq

/-- Raw user object as read from `users.json` (`models.UserJSON`). -/
structure UserJSON where
  id : String
  name : String
  profile : Profile
  isBot : Bool
  deleted : Bool
deriving DecidableEq

/-- A Slack channel record (`models.Channel`); `created` is an epoch. -/
structure Channel where
  id : String
  name : String
  created : Int
  creator : String
  isArchived : Bool
deriving DecidableEq

/-- A Slack message (`models.Message`). `date` is the derived calendar
timestamp (Unix seconds); `timestamp` is the raw source token. -/
structure Message where
  id : Nat
  userID : String
  text : String
  type : String
  subtype : String
  timestamp : String
  date : Int
  filename : String
  threadTS : String
  parentUserID : String
  replyCount : Int
  replyUsersCount : Int
  latestReply : String
  userName : String
  userRealName : String
deriving DecidableEq

/-- A row of the `messages` table: exactly the columns `InsertMessage`
writes (id, user_id, text, type, subtype, timestamp, date, filename). -/
structure MsgRow where
  id : Nat
  userID : String
  text : String
  type : String
  subtype : String
  timestamp : String
  date : Int
  filename : String
deriving DecidableEq

/-- A row of the `messages_fts` virtual table: rowid plus the four
indexed columns (text, user_name, user_real_name, filename). -/
structure FtsRow where
  rowid : Nat
  text : String
  userName : String
  userRealName : String
  filename : String
deriving DecidableEq

/-- A search result (`models.SearchResult`), columns as scanned by
`SearchMessages`; the SQL constant `0.0 as rank` is modelled by `0`.
Thread fields are not selected by the query, so scanning leaves them at
their zero values. -/
structure SearchResult where
  id : Nat
  userID : String
  text : String
  type : String
  subtype : String
  timestamp : String
  date : Int
  filename : String
  userName : String
  userRealName : String
  rank : Int
  snippet : String
  threadTS : String
  replyCount : Int
deriving DecidableEq

/-! ## Filename sanitization (the two copies) -/

/-- Replace one character according to a single-character replacement
pair list (the semantics of Go `strings.NewReplacer` when every pattern
is a single distinct character). -/
def replaceChar (pairs : List (Char × Char)) (c : Char) : Char :=
  match pairs.find? (fun pr => pr.1 == c) with
  | some pr => pr.2
  | none => c

/-- Apply a single-character replacer to a whole string. -/
def applyReplacer (pairs : List (Char × Char)) (s : String) : String :=
  ⟨s.data.map (replaceChar pairs)⟩

/-- Replacement pairs of `sanitizeFilename` in `pkg/database/database.go`. -/
def sanitizePairsDatabase : List (Char × Char) :=
  [(':', '_'), ('/', '_'), ('\\', '_'), ('*', '_'), ('?', '_'),
   ('"', '_'), ('<', '_'), ('>', '_'), ('|', '_'), (' ', '_')]

/-- Replacement pairs of `sanitizeFilename` in `pkg/searcher/searcher.go`. -/
def sanitizePairsSearcher : List (Char × Char) :=
  [(':', '_'), ('/', '_'), ('\\', '_'), ('*', '_'), ('?', '_'),
   ('"', '_'), ('<', '_'), ('>', '_'), ('|', '_'), (' ', '_')]

/-- `sanitizeFilename` as defined in the database package. -/
def sanitizeFilenameDatabase (name : String) : String :=
  applyReplacer sanitizePairsDatabase name

/-- `sanitizeFilename` as defined in the searcher package. -/
def sanitizeFilenameSearcher (name : String) : String :=
  applyReplacer sanitizePairsSearcher name

/-! ## The store (`pkg/database/database.go`) -/

/-- The SQLite-backed store: the three tables, the FTS index, the
AUTOINCREMENT counter for `messages.id`, and whether the underlying
medium accepts writes. -/
structure DB where
  users : List User
  channels : List Channel
  messages : List MsgRow
  fts : List FtsRow
  nextId : Nat
  available : Bool
deriving DecidableEq

/-- A fresh store after `createTables`. -/
def emptyDB : DB :=
  { users := [], channels := [], messages := [], fts := [], nextId := 1, available := true }

/-- `INSERT OR REPLACE` keyed on a primary key: replace the row sharing
the key if one exists, otherwise append the new row. -/
def upsertBy {α : Type} (key : α → String) (l : List α) (x : α) : List α :=
  if l.any (fun y => key y == key x) then
    l.map (fun y => if key y = key x then x else y)
  else l ++ [x]

/-- `InsertUser`: `INSERT OR REPLACE INTO users`. -/
def insertUser (db : DB) (u : User) : DB :=
  { db with users := upsertBy (fun v => v.id) db.users u }

/-- `InsertChannel`: `INSERT OR REPLACE INTO channels`. -/
def insertChannel (db : DB) (c : Channel) : DB :=
  { db with channels := upsertBy (fun v => v.id) db.channels c }

/-- `InsertMessage` plus the `messages_fts_insert` trigger: the message
row is appended with the next id; the trigger's
`INSERT INTO messages_fts ... SELECT ... FROM users u WHERE u.id = new.user_id`
contributes one FTS row per matching user — and therefore none at all
when the author id is not in `users` (`COALESCE` on `u.name` and
`u.real_name` only applies to rows that the FROM clause produces). -/
def insertMessage (db : DB) (m : Message) : DB :=
  let id := db.nextId
  let row : MsgRow :=
    { id, userID := m.userID, text := m.text, type := m.type,
      subtype := m.subtype, timestamp := m.timestamp, date := m.date,
      filename := m.filename }
  let ftsNew : List FtsRow :=
    match db.users.find? (fun u => u.id == m.userID) with
    | some u => [{ rowid := id, text := m.text, userName := u.name,
                   userRealName := u.realName, filename := m.filename }]
    | none => []
  { db with messages := db.messages ++ [row], fts := db.fts ++ ftsNew,
            nextId := id + 1 }

/-- `InsertMessage` as a fallible operation: the Exec fails when the
underlying medium is unavailable, leaving the store unchanged. -/
def insertMessageE (db : DB) (m : Message) : Except String DB :=
  if db.available then .ok (insertMessage db m)
  else .error "failed to insert message"

/-- A full-text query handed to the engine: either the engine rejects
it as malformed, or it denotes a predicate on indexed rows (the MATCH
grammar is a pass-through contract of the FTS engine). -/
inductive FtsQuery where
  | malformed (e : String)
  | pred (p : FtsRow → Bool)

/-- The row construction of `SearchMessages`: join `messages_fts` back
to `messages` on rowid and LEFT JOIN `users`, with
`COALESCE(u.name, '')`, `COALESCE(u.real_name, '')`, `0.0 as rank` and
the engine-generated snippet. -/
def rowToResult (db : DB) (snip : FtsRow → String) (e : FtsRow) : Option SearchResult :=
  (db.messages.find? (fun m => m.id == e.rowid)).map (fun m =>
    let u := db.users.find? (fun v => v.id == m.userID)
    { id := m.id, userID := m.userID, text := m.text, type := m.type,
      subtype := m.subtype, timestamp := m.timestamp, date := m.date,
      filename := m.filename,
      userName := (u.map (fun v => v.name)).getD "",
      userRealName := (u.map (fun v => v.realName)).getD "",
      rank := 0, snippet := snip e, threadTS := "", replyCount := 0 })

/-- `SearchMessages`: run the MATCH query against the index (an error
if the engine rejects the expression), join back to messages/users, and
apply `LIMIT ?` (a negative SQLite LIMIT means no limit). `snip` is the
engine's black-box snippet function. -/
def searchMessages (db : DB) (snip : FtsRow → String) (q : FtsQuery)
    (limit : Int) : Except String (List SearchResult) :=
  match q with
  | .malformed e => .error ("search query failed: " ++ e)
  | .pred p =>
    let rows := (db.fts.filter p).filterMap (rowToResult db snip)
    .ok (if limit < 0 then rows else rows.take limit.toNat)

/-- `GetStats`: the three table counts. -/
def getStats (db : DB) : Nat × Nat × Nat :=
  (db.users.length, db.channels.length, db.messages.length)

/-! ## Ingestion pipeline (`pkg/indexer/indexer.go`) -/

/-- The fields `processMessageFile` reads from a decoded record map:
each is present-as-a-string or not (`v, ok := msgMap[k].(string)`
yields `ok = false` both for an absent key and for a non-string value). -/
structure RecordFields where
  user : Option String
  text : Option String
  subtype : Option String
  ts : Option String
  type : Option String
deriving DecidableEq

/-- A raw element of a batch file's top-level array: either it fails to
decode as an object (`json.Unmarshal` error, skipped) or it decodes to
its string-typed fields. -/
inductive RawRecord where
  | malformed
  | wellFormed (f : RecordFields)
deriving DecidableEq

/-- The derived calendar timestamp of one record: start from the file
date, and overwrite it with `time.Unix(seconds, 0)` when the token is
non-empty and `parseSlackTimestamp` succeeds. -/
def msgTimeOf (date : Int) (ts : String) : Int :=
  if ts ≠ "" then
    match parseSlackTimestamp ts with
    | some t => t
    | none => date
  else date

/-- The `models.Message` literal built for an accepted record. -/
def buildMessage (date : Int) (filename : String) (f : RecordFields) : Message :=
  let timestamp := f.ts.getD ""
  { id := 0, userID := f.user.getD "", text := f.text.getD "",
    type := f.type.getD "", subtype := f.subtype.getD "",
    timestamp := timestamp, date := msgTimeOf date timestamp,
    filename := filename, threadTS := "", parentUserID := "",
    replyCount := 0, replyUsersCount := 0, latestReply := "",
    userName := "", userRealName := "" }

/-- The per-record filter of `processMessageFile`: skip records that
fail to decode, bot messages (`subtype == "bot_message"`), and records
without a user id, without text, or whose text is blank after trimming;
otherwise build the message to insert. -/
def recordAction (date : Int) (filename : String) : RawRecord → Option Message
  | .malformed => none
  | .wellFormed f =>
    if f.subtype == some "bot_message" then none
    else if f.user.isNone || f.text.isNone || goTrimSpace (f.text.getD "") == "" then none
    else some (buildMessage date filename f)

/-- The record loop of `processMessageFile`: skipped records are passed
over; an accepted record is inserted, and an insert failure aborts the
rest of the file, returning the store as mutated so far together with
the error. -/
def processRecords (db : DB) (rs : List RawRecord) (date : Int)
    (filename : String) : DB × Option String :=
  match rs with
  | [] => (db, none)
  | r :: rest =>
    match recordAction date filename r with
    | none => processRecords db rest date filename
    | some m =>
      match insertMessageE db m with
      | .ok db2 => processRecords db2 rest date filename
      | .error e => (db, some e)

/-- Content of one per-day batch file: unreadable, readable but not a
JSON array, or a JSON array of raw records. -/
inductive FileData where
  | unreadable
  | notArray
  | records (rs : List RawRecord)
deriving DecidableEq

/-- A per-day batch file: its base name and its content. -/
structure BatchFile where
  filename : String
  data : FileData
deriving DecidableEq

/-- `processMessageFile`: read the file, decode the top-level array,
parse the calendar date from the filename, then run the record loop.
Every failure path reports an error; the store reflects any inserts
made before the failure. -/
def processMessageFile (db : DB) (file : BatchFile) : DB × Option String :=
  match file.data with
  | .unreadable => (db, some "failed to read file")
  | .notArray => (db, some "failed to parse JSON")
  | .records rs =>
    match parseFileDate file.filename with
    | none => (db, some "failed to parse date from filename")
    | some date => processRecords db rs date file.filename

/-- Running state of `processMessageFiles`: the store plus the
processed-file counter and the number of warnings printed. -/
structure IngestState where
  db : DB
  processedFiles : Nat
  warnings : Nat
deriving DecidableEq

/-- The walk callback loop of `processMessageFiles` over the discovered
`.json` files: a failed file only prints a warning and the walk
continues; a successful file bumps the processed counter. -/
def processFilesLoop (st : IngestState) : List BatchFile → IngestState
  | [] => st
  | f :: rest =>
    match processMessageFile st.db f with
    | (db2, some _) =>
      processFilesLoop { st with db := db2, warnings := st.warnings + 1 } rest
    | (db2, none) =>
      processFilesLoop { st with db := db2, processedFiles := st.processedFiles + 1 } rest

/-- `processMessageFiles` on the list of `.json` files found under the
channel directory. -/
def processMessageFiles (db : DB) (files : List BatchFile) : IngestState :=
  processFilesLoop { db := db, processedFiles := 0, warnings := 0 } files

/-- The `models.UserJSON` to `models.User` conversion in `loadUsers`. -/
def userOfJSON (uj : UserJSON) : User :=
  { id := uj.id, name := uj.name, realName := uj.profile.realName,
    displayName := uj.profile.displayName, isBot := uj.isBot,
    deleted := uj.deleted }

/-- The insert loop of `loadUsers` over the decoded `users.json`. -/
def loadUsersList (db : DB) (us : List UserJSON) : DB :=
  us.foldl (fun d uj => insertUser d (userOfJSON uj)) db

/-- The insert loop of `loadChannels` over the decoded `channels.json`. -/
def loadChannelsList (db : DB) (cs : List Channel) : DB :=
  cs.foldl insertChannel db

/-- Reference-data ingestion as `IndexChannel` performs it: users first,
then channels. -/
def ingestRefData (db : DB) (us : List UserJSON) (cs : List Channel) : DB :=
  loadChannelsList (loadUsersList db us) cs

/-! ## Query engine and thread reconstruction (`pkg/searcher/searcher.go`) -/

/-- `Searcher.Search`: normalize a non-positive limit to 10, then call
`SearchMessages`. -/
def search (db : DB) (snip : FtsRow → String) (q : FtsQuery)
    (limit : Int) : Except String (List SearchResult) :=
  searchMessages db snip q (if limit ≤ 0 then 10 else limit)

/-- The `threadTS` variable computed for one result in
`GenerateHTMLOutput`: the result's own thread-root token if non-empty,
else the result's own timestamp token if its reply count is positive,
else the empty string. -/
def rootTokenOf (r : SearchResult) : String :=
  if r.threadTS ≠ "" then r.threadTS
  else if r.replyCount > 0 then r.timestamp
  else ""

/-- A search result together with its thread context
(`searcher.ThreadedSearchResult`). -/
structure ThreadedSearchResult where
  originalResult : SearchResult
  threadMessages : List Message
  isThreaded : Bool

/-- The per-result body of the loop in `GenerateHTMLOutput`: start from
not-threaded; when the computed root token is non-empty, fetch the
thread, and mark threaded exactly when the fetch succeeds with more
than one message. `fetch` stands for `GetThreadMessages`. -/
def classifyResult (fetch : String → Except String (List Message))
    (r : SearchResult) : ThreadedSearchResult :=
  let threadTS := rootTokenOf r
  if threadTS ≠ "" then
    match fetch threadTS with
    | .ok msgs =>
      if msgs.length > 1 then
        { originalResult := r, threadMessages := msgs, isThreaded := true }
      else { originalResult := r, threadMessages := [], isThreaded := false }
    | .error _ => { originalResult := r, threadMessages := [], isThreaded := false }
  else { originalResult := r, threadMessages := [], isThreaded := false }

/-- The thread-context collection loop of `GenerateHTMLOutput`. -/
def collectThreadedResults (fetch : String → Except String (List Message))
    (results : List SearchResult) : List ThreadedSearchResult :=
  results.map (classifyResult fetch)

/-- Environment visible to the path helpers: the working directory (as
`filepath.Abs` consults `os.Getwd`, which can fail) and the set of
files that actually exist on disk. -/
structure Env where
  wd : Option String
  files : List String

/-- Unix `filepath.IsAbs`: a path is absolute when it starts with a
slash. -/
def isAbsPath (p : String) : Bool :=
  match p.data with
  | '/' :: _ => true
  | _ => false

/-- `filepath.Join` for the fixed relative components used here. -/
def joinRel (dir file : String) : String :=
  dir ++ "/" ++ file

/-- `filepath.Abs`: an absolute path is returned unchanged; a relative
one is resolved against the working directory, failing only when the
working directory cannot be determined. -/
def filepathAbs (env : Env) (p : String) : Option String :=
  if isAbsPath p then some p else env.wd.map (fun w => joinRel w p)

/-- `fileExists` from the searcher package: it only checks that
`filepath.Abs` succeeds on the name — it never consults `env.files`. -/
def fileExists (env : Env) (filename : String) : Bool :=
  (filepathAbs env filename).isSome

/-- `ValidateDatabaseExists`: sanitize the channel name, form
`databases/<name>.db`, and call `fileExists`. -/
def validateDatabaseExists (env : Env) (channelName : String) : Bool :=
  fileExists env (joinRel "databases" (sanitizeFilenameSearcher channelName ++ ".db"))

/-! ## Table observation helpers and concrete fixtures for the proofs -/

/-- A store already holding one loaded user, for exercising the insert
trigger. -/
def c1DB : DB :=
  { emptyDB with users := [{ id := "U2", name := "alice", realName := "Alice Smith",
                             displayName := "alice", isBot := false, deleted := false }] }

/-- A message whose author id is not among the loaded users. -/
def c1MsgMissing : Message :=
  buildMessage 1547510400 "2019-01-15.json"
    { user := some "U1", text := some "hello world", subtype := none,
      ts := some "1565852586.087600", type := some "message" }

/-- A message whose author id is among the loaded users. -/
def c1MsgFound : Message :=
  buildMessage 1547510400 "2019-01-15.json"
    { user := some "U2", text := some "hello world", subtype := none,
      ts := some "1565852586.087600", type := some "message" }

/-- A store whose underlying medium refuses writes. -/
def c2DB : DB := { emptyDB with available := false }

/-- A record that passes every filter and therefore reaches
`InsertMessage`. -/
def c2Good : RawRecord :=
  .wellFormed { user := some "U1", text := some "hello", subtype := none,
                ts := some "1565852586.087600", type := some "message" }

/-- A batch file with one accepted record. -/
def c2File1 : BatchFile := { filename := "2019-01-15.json", data := .records [c2Good] }

/-- A later batch file (here with an empty record array). -/
def c2File2 : BatchFile := { filename := "2019-01-16.json", data := .records [] }

/-- A thread fetch that succeeds on root "1000.1" with two messages. -/
def c3Fetch (root : String) : Except String (List Message) :=
  if root = "1000.1" then
    .ok [buildMessage 1000 "2019-01-15.json"
           { user := some "U1", text := some "root msg", subtype := none,
             ts := some "1000.1", type := some "message" },
         buildMessage 1001 "2019-01-15.json"
           { user := some "U2", text := some "reply", subtype := none,
             ts := some "1001.2", type := some "message" }]
  else .error "thread lookup failed"

/-- A search result carrying a non-empty thread-root token. -/
def c3Result : SearchResult :=
  { id := 7, userID := "U2", text := "reply", type := "message", subtype := "",
    timestamp := "1001.2", date := 1001, filename := "2019-01-15.json",
    userName := "bob", userRealName := "Bob", rank := 0, snippet := "<mark>reply</mark>",
    threadTS := "1000.1", replyCount := 0 }

/-- Fields of a concrete accepted record with token "12.5". -/
def c4F : RecordFields :=
  { user := some "U1", text := some "hi", subtype := none,
    ts := some "12.5", type := some "message" }

/-- A bot-tagged record. -/
def c5Bot : RecordFields :=
  { user := some "B1", text := some "automated notice", subtype := some "bot_message",
    ts := some "1565852586.087600", type := some "message" }

/-- A record that passes the filter, following the skipped one. -/
def c5Good : RawRecord :=
  .wellFormed { user := some "U1", text := some "hello", subtype := none,
                ts := some "1565852586.087600", type := some "message" }

/-- SELECT-by-primary-key observation on a table: the first row whose
key equals `id` (keys are unique under upsert-only writes). -/
def lookupBy {α : Type} (key : α → String) (id : String) : List α → Option α
  | [] => none
  | y :: t => if key y = id then some y else lookupBy key id t

/-- The last record of a file carrying a given key, the winner of
last-write-wins upsert semantics. -/
def lastWriteBy {α : Type} (key : α → String) (f : List α) (id : String) : Option α :=
  match f with
  | [] => none
  | u :: t =>
    match lastWriteBy key t id with
    | some w => some w
    | none => if key u = id then some u else none

/-- Folding a whole file of records into a table by upsert. -/
def upsertAllBy {α : Type} (key : α → String) (l file : List α) : List α :=
  file.foldl (upsertBy key) l

/-- Whether a key is present in a table. -/
def presentBy {α : Type} (key : α → String) (l : List α) (id : String) : Bool :=
  l.any (fun y => key y == id)

/-! ## Claim C8: the two sanitization copies -/

/-- Claim C8: channel-name sanitization is a pure deterministic function
(in this embedding, any Lean function is), and the database-package copy
and the searcher-package copy compute identical output on every channel
name, each disallowed character being mapped identically by both. -/
theorem sanitizeFilename_copies_agree :
    (∀ name, sanitizeFilenameDatabase name = sanitizeFilenameSearcher name) ∧
    (∀ c, replaceChar sanitizePairsDatabase c = replaceChar sanitizePairsSearcher c) :=
  ⟨fun _ => rfl, fun _ => rfl⟩

/-! ## Claim C9: ValidateDatabaseExists -/

/-- Claim C9: as long as the working directory is determinable,
`ValidateDatabaseExists` returns `true` for every channel name — the
environment's actual file set is never consulted, because `fileExists`
only checks that `filepath.Abs` succeeds. -/
theorem validateDatabaseExists_always_true (env : Env) (name : String)
    (h : env.wd.isSome = true) : validateDatabaseExists env name = true := by
  unfold validateDatabaseExists fileExists filepathAbs
  split
  · rfl
  · cases henv : env.wd with
    | none => rw [henv] at h; cases h
    | some w => simp [henv]

/-- Witness for C9 at a concrete environment whose file set is empty
(no database file exists), with a working directory available. -/
theorem validateDatabaseExists_always_true_witness :
    validateDatabaseExists { wd := some "/home/user", files := [] } "sig-auth" = true :=
  validateDatabaseExists_always_true { wd := some "/home/user", files := [] } "sig-auth" rfl

/-! ## Claim C1: the FTS synchronization trigger -/

/-- Claim C1 is violated by the code: inserting a message whose author
id is not among the loaded users appends the message row but creates NO
full-text entry at all (the trigger's `INSERT ... SELECT ... FROM users
WHERE u.id = new.user_id` selects zero rows), instead of an entry with
empty author fields; by contrast, with the author present the entry is
created one-to-one with matching author handle and real name. -/
theorem insertMessage_missing_author_drops_fts_entry :
    ((insertMessage c1DB c1MsgMissing).messages.length = 1 ∧
     (insertMessage c1DB c1MsgMissing).messages.map (fun m => m.userID) = ["U1"] ∧
     (insertMessage c1DB c1MsgMissing).fts = []) ∧
    ((insertMessage c1DB c1MsgFound).fts =
      [{ rowid := 1, text := "hello world", userName := "alice",
         userRealName := "Alice Smith", filename := "2019-01-15.json" }]) := by
  decide

/-! ## Claim C2: store write errors and the file loop -/

/-- Counterexample to claim C2: the first file fails with a store write
error, yet the subsequent batch file of the same channel is still
processed — the walk records a warning for the failed file and counts
the second file as processed, instead of aborting ingestion. -/
theorem processFiles_continue_after_write_error :
    processMessageFile c2DB c2File1 = (c2DB, some "failed to insert message") ∧
    (processMessageFiles c2DB [c2File1, c2File2]).warnings = 1 ∧
    (processMessageFiles c2DB [c2File1, c2File2]).processedFiles = 1 := by
  decide

/-- Claim C2 as amended: a store write error aborts only the current
batch file — the remaining records of that file are not attempted and
the file is reported as a warning — while the walk continues with the
subsequent batch files of the channel. -/
theorem storeWriteError_aborts_file_not_channel :
    (∀ (st : IngestState) (f : BatchFile) (rest : List BatchFile) (db2 : DB) (e : String),
      processMessageFile st.db f = (db2, some e) →
      processFilesLoop st (f :: rest) =
        processFilesLoop { st with db := db2, warnings := st.warnings + 1 } rest) ∧
    (∀ (db : DB) (r : RawRecord) (rest : List RawRecord) (date : Int) (fn : String) (m : Message),
      recordAction date fn r = some m → db.available = false →
      processRecords db (r :: rest) date fn = (db, some "failed to insert message")) := by
  constructor
  · intro st f rest db2 e h
    simp only [processFilesLoop]
    rw [h]
  · intro db r rest date fn m h hav
    simp only [processRecords]
    rw [h]
    simp [insertMessageE, hav]

/-- Witness for the amended C2 at the concrete failing store and files:
the loop steps over the failed first file into the rest, and the record
loop aborts the file at the failed insert. -/
theorem storeWriteError_aborts_file_not_channel_witness :
    processFilesLoop { db := c2DB, processedFiles := 0, warnings := 0 } (c2File1 :: [c2File2]) =
      processFilesLoop { db := c2DB, processedFiles := 0, warnings := 0 + 1 } [c2File2] ∧
    processRecords c2DB (c2Good :: []) 1547510400 "2019-01-15.json" =
      (c2DB, some "failed to insert message") :=
  ⟨storeWriteError_aborts_file_not_channel.1 { db := c2DB, processedFiles := 0, warnings := 0 }
      c2File1 [c2File2] c2DB "failed to insert message" (by decide),
   storeWriteError_aborts_file_not_channel.2 c2DB c2Good [] 1547510400 "2019-01-15.json"
      (buildMessage 1547510400 "2019-01-15.json"
        { user := some "U1", text := some "hello", subtype := none,
          ts := some "1565852586.087600", type := some "message" })
      (by decide) rfl⟩

/-! ## Claim C3: threading classification -/

/-- Claim C3: the thread root of a result is its non-empty thread-root
token when present, else its own timestamp token when its reply count
is positive; a result with empty thread-root token and non-positive
reply count is never marked threaded; a failed or one-message-or-fewer
thread fetch leaves the result not threaded; and a result is marked
threaded exactly when a fetch occurs (the established root token is
non-empty) and succeeds with more than one message. -/
theorem threading_classification (fetch : String → Except String (List Message))
    (r : SearchResult) :
    (r.threadTS ≠ "" → rootTokenOf r = r.threadTS) ∧
    (r.threadTS = "" → 0 < r.replyCount → rootTokenOf r = r.timestamp) ∧
    (r.threadTS = "" → r.replyCount ≤ 0 → (classifyResult fetch r).isThreaded = false) ∧
    (∀ e, fetch (rootTokenOf r) = .error e → (classifyResult fetch r).isThreaded = false) ∧
    (∀ msgs, fetch (rootTokenOf r) = .ok msgs → msgs.length ≤ 1 →
      (classifyResult fetch r).isThreaded = false) ∧
    ((classifyResult fetch r).isThreaded = true ↔
      rootTokenOf r ≠ "" ∧ ∃ msgs, fetch (rootTokenOf r) = .ok msgs ∧ 1 < msgs.length) := by
  refine ⟨?_, ?_, ?_, ?_, ?_, ?_⟩
  · intro h; simp [rootTokenOf, h]
  · intro h hc; simp [rootTokenOf, h, hc]
  · intro h hc
    have hroot : rootTokenOf r = "" := by
      simp [rootTokenOf, h, not_lt.mpr hc]
    simp [classifyResult, hroot]
  · intro e he
    by_cases hroot : rootTokenOf r = ""
    · simp [classifyResult, hroot]
    · simp [classifyResult, hroot, he]
  · intro msgs hm hle
    by_cases hroot : rootTokenOf r = ""
    · simp [classifyResult, hroot]
    · simp [classifyResult, hroot, hm, not_lt.mpr hle]
  · by_cases hroot : rootTokenOf r = ""
    · simp [classifyResult, hroot]
    · cases hf : fetch (rootTokenOf r) with
      | error e => simp [classifyResult, hroot, hf]
      | ok msgs =>
        by_cases hlen : 1 < msgs.length
        · simp [classifyResult, hroot, hf, hlen]
        · simp [classifyResult, hroot, hf, hlen]

/-- Witness for C3 at a concrete result and fetch: the root token is
taken from the thread-root token, and the two-message fetch marks the
result threaded. -/
theorem threading_classification_witness :
    rootTokenOf c3Result = c3Result.threadTS ∧
    (classifyResult c3Fetch c3Result).isThreaded = true :=
  ⟨(threading_classification c3Fetch c3Result).1 (by decide),
   ((threading_classification c3Fetch c3Result).2.2.2.2.2).mpr
     ⟨by decide,
      [buildMessage 1000 "2019-01-15.json"
         { user := some "U1", text := some "root msg", subtype := none,
           ts := some "1000.1", type := some "message" },
       buildMessage 1001 "2019-01-15.json"
         { user := some "U2", text := some "reply", subtype := none,
           ts := some "1001.2", type := some "message" }],
      rfl, by decide⟩⟩

/-! ## Claim C4: timestamp derivation of an accepted record -/

/-- Claim C4: every accepted record stores the raw source timestamp
token verbatim; when `parseSlackTimestamp` succeeds on it the derived
calendar timestamp is built from the parsed seconds, and when it fails
(wrong shape or non-integer seconds, including a missing token) the
calendar date parsed from the batch filename is used instead. -/
theorem accepted_record_timestamp (date : Int) (fn : String)
    (f : RecordFields) (m : Message)
    (h : recordAction date fn (.wellFormed f) = some m) :
    m.timestamp = f.ts.getD "" ∧
    (∀ sec, parseSlackTimestamp m.timestamp = some sec → m.date = sec) ∧
    (parseSlackTimestamp m.timestamp = none → m.date = date) := by
  have hm : m = buildMessage date fn f := by
    by_cases h1 : (f.subtype == some "bot_message") = true
    · simp [recordAction, h1] at h
    · by_cases h2 : (f.user.isNone || f.text.isNone || goTrimSpace (f.text.getD "") == "") = true
      · simp [recordAction, h1, h2] at h
      · simp at h1 h2
        simp [recordAction, h1, h2] at h
        exact h.symm
  subst hm
  have htok : (buildMessage date fn f).timestamp = f.ts.getD "" := rfl
  refine ⟨rfl, ?_, ?_⟩
  · intro sec hsec
    rw [htok] at hsec
    show msgTimeOf date (f.ts.getD "") = sec
    unfold msgTimeOf
    split
    · rw [hsec]
    · rename_i hts
      rw [not_not.mp hts] at hsec
      rw [show parseSlackTimestamp "" = none from by decide] at hsec
      exact Option.noConfusion hsec
  · intro hnone
    rw [htok] at hnone
    show msgTimeOf date (f.ts.getD "") = date
    unfold msgTimeOf
    split
    · rw [hnone]
    · rfl

/-- Witness for C4 at a concrete accepted record: the raw token "12.5"
is stored verbatim and the derived timestamp is its 12 seconds, not the
file date 100. -/
theorem accepted_record_timestamp_witness :
    (buildMessage 100 "2019-01-15.json" c4F).timestamp = c4F.ts.getD "" ∧
    (buildMessage 100 "2019-01-15.json" c4F).date = 12 :=
  have h : recordAction 100 "2019-01-15.json" (RawRecord.wellFormed c4F) =
      some (buildMessage 100 "2019-01-15.json" c4F) := by decide
  ⟨(accepted_record_timestamp 100 "2019-01-15.json" c4F _ h).1,
   (accepted_record_timestamp 100 "2019-01-15.json" c4F _ h).2.1 12 (by decide)⟩

/-! ## Claim C5: the per-record filter -/

/-- Claim C5: a record lacking an author identifier, lacking a text
field, with text blank after trimming, or tagged `bot_message` is
skipped: it contributes no message, and removing it from the file
leaves the processing of every other record unchanged — so it is never
present in the store and never aborts the rest of the file. -/
theorem skipped_record_transparent (db : DB) (pre post : List RawRecord)
    (date : Int) (fn : String) (f : RecordFields)
    (h : f.user = none ∨ f.text = none ∨ goTrimSpace (f.text.getD "") = "" ∨
         f.subtype = some "bot_message") :
    recordAction date fn (.wellFormed f) = none ∧
    processRecords db (pre ++ .wellFormed f :: post) date fn =
      processRecords db (pre ++ post) date fn := by
  have hskip : recordAction date fn (.wellFormed f) = none := by
    by_cases h1 : (f.subtype == some "bot_message") = true
    · simp [recordAction, h1]
    · have h2 : (f.user.isNone || f.text.isNone || goTrimSpace (f.text.getD "") == "") = true := by
        rcases h with h | h | h | h
        · simp [h]
        · simp [h]
        · simp [h]
        · simp [h] at h1
      simp [recordAction, h1, h2]
  refine ⟨hskip, ?_⟩
  induction pre generalizing db with
  | nil =>
    simp only [List.nil_append, processRecords]
    rw [hskip]
  | cons r t ih =>
    simp only [List.cons_append, processRecords]
    split
    · exact ih db
    · split
      · exact ih _
      · rfl

/-- Witness for C5: a concrete bot-tagged record is skipped and its
presence in front of an accepted record changes nothing. -/
theorem skipped_record_transparent_witness :
    recordAction 1547510400 "2019-01-15.json" (.wellFormed c5Bot) = none ∧
    processRecords emptyDB ([] ++ .wellFormed c5Bot :: [c5Good]) 1547510400 "2019-01-15.json" =
      processRecords emptyDB ([] ++ [c5Good]) 1547510400 "2019-01-15.json" :=
  skipped_record_transparent emptyDB [] [c5Good] 1547510400 "2019-01-15.json" c5Bot
    (Or.inr (Or.inr (Or.inr rfl)))

/-! ## Claim C7: limit normalization and empty results -/

/-- Claim C7: `Search` replaces a non-positive limit by 10 before
delegating to `SearchMessages`; a returned result list never exceeds
the normalized limit; and a query matching no indexed row yields an
empty result list without error. -/
theorem search_limit_normalization (db : DB) (snip : FtsRow → String)
    (q : FtsQuery) (limit : Int) :
    search db snip q limit = searchMessages db snip q (if limit ≤ 0 then 10 else limit) ∧
    (∀ p res, q = FtsQuery.pred p → search db snip q limit = .ok res →
      (res.length : Int) ≤ (if limit ≤ 0 then 10 else limit)) ∧
    (∀ p, q = FtsQuery.pred p → (∀ e ∈ db.fts, p e = false) →
      search db snip q limit = .ok []) := by
  refine ⟨rfl, ?_, ?_⟩
  · intro p res hq hres
    subst hq
    simp only [search, searchMessages] at hres
    set nl : Int := if limit ≤ 0 then 10 else limit with hnl
    have hpos : 0 < nl := by
      rw [hnl]; split
      · norm_num
      · omega
    rw [if_neg (by omega : ¬ nl < 0)] at hres
    have hres2 := Except.ok.inj hres
    rw [← hres2]
    refine le_trans ?_ (le_of_eq (Int.toNat_of_nonneg hpos.le))
    exact_mod_cast List.length_take_le _ _
  · intro p hq hall
    subst hq
    have hfilter : db.fts.filter p = [] := by
      rw [List.filter_eq_nil_iff]
      intro e he
      simp [hall e he]
    simp [search, searchMessages, hfilter]

/-- Witness for C7: the all-false query on the empty store with the
non-positive limit 0 returns the empty result list without error. -/
theorem search_limit_normalization_witness :
    search emptyDB (fun _ => "") (FtsQuery.pred (fun _ => false)) 0 = .ok [] :=
  (search_limit_normalization emptyDB (fun _ => "") (FtsQuery.pred (fun _ => false)) 0).2.2
    (fun _ => false) rfl (fun e he => absurd he (List.not_mem_nil e))

/-! ## Claim C10: the fraction is discarded -/

/-- Splitting a dot-free character list yields the single whole part. -/
theorem splitOnDot_no_dot (f : List Char) (h : '.' ∉ f) : splitOnDot f = [f] := by
  induction f with
  | nil => rfl
  | cons c t ih =>
    have hc : c ≠ '.' := fun hh => h (hh ▸ List.mem_cons_self c t)
    have ht : '.' ∉ t := fun hh => h (List.mem_cons_of_mem c hh)
    simp [splitOnDot, ih ht, hc]

/-- Splitting a list of the form `s ++ "." ++ f` with dot-free `s` and
`f` yields exactly the two parts. -/
theorem splitOnDot_append_parts (s f : List Char) (hs : '.' ∉ s) (hf : '.' ∉ f) :
    splitOnDot (s ++ '.' :: f) = [s, f] := by
  induction s with
  | nil => simp [splitOnDot, splitOnDot_no_dot f hf]
  | cons c t ih =>
    have hc : c ≠ '.' := fun hh => hs (hh ▸ List.mem_cons_self c t)
    have ht : '.' ∉ t := fun hh => hs (List.mem_cons_of_mem c hh)
    simp [splitOnDot, ih ht, hc]

/-- Claim C10: `parseSlackTimestamp` never inspects the fractional
part — two tokens with the same integer-seconds part and different
(dot-free) fractions parse to the same derived calendar timestamp —
and a token that does not have exactly one dot-separated fraction
fails to parse. -/
theorem parseSlackTimestamp_fraction_irrelevant :
    (∀ s f1 f2 : List Char, '.' ∉ s → '.' ∉ f1 → '.' ∉ f2 →
      parseSlackTimestamp ⟨s ++ '.' :: f1⟩ = parseSlackTimestamp ⟨s ++ '.' :: f2⟩) ∧
    (∀ t : String, (splitOnDot t.data).length ≠ 2 → parseSlackTimestamp t = none) := by
  constructor
  · intro s f1 f2 hs h1 h2
    have e1 : splitOnDot ((⟨s ++ '.' :: f1⟩ : String)).data = [s, f1] :=
      splitOnDot_append_parts s f1 hs h1
    have e2 : splitOnDot ((⟨s ++ '.' :: f2⟩ : String)).data = [s, f2] :=
      splitOnDot_append_parts s f2 hs h2
    unfold parseSlackTimestamp
    rw [e1, e2]
  · intro t h
    unfold parseSlackTimestamp
    cases hs : splitOnDot t.data with
    | nil => rfl
    | cons a l1 =>
      cases l1 with
      | nil => rfl
      | cons b l2 =>
        cases l2 with
        | nil => exact absurd (by rw [hs] : splitOnDot t.data = [a, b]) (fun hh => h (by rw [hh]; rfl))
        | cons c l3 => rfl

/-- Witness for C10: tokens 123.45 and 123.999 derive the same
timestamp, and the dotless token 123 fails to parse. -/
theorem parseSlackTimestamp_fraction_irrelevant_witness :
    parseSlackTimestamp ⟨['1', '2', '3'] ++ '.' :: ['4', '5']⟩ =
      parseSlackTimestamp ⟨['1', '2', '3'] ++ '.' :: ['9', '9', '9']⟩ ∧
    parseSlackTimestamp "123" = none :=
  ⟨parseSlackTimestamp_fraction_irrelevant.1 ['1', '2', '3'] ['4', '5'] ['9', '9', '9']
      (by decide) (by decide) (by decide),
   parseSlackTimestamp_fraction_irrelevant.2 "123" (by decide)⟩

/-! ## Claim C6: idempotent upsert of reference data -/

theorem lookupBy_map_replace {α : Type} (key : α → String) (x : α) (id : String) :
    ∀ t : List α,
      lookupBy key id (t.map (fun y => if key y = key x then x else y)) =
        if key x = id then (lookupBy key (key x) t).map (fun _ => x)
        else lookupBy key id t := by
  intro t
  induction t with
  | nil => simp [lookupBy]
  | cons h t ih =>
    by_cases hh : key h = key x
    · by_cases hx : key x = id
      · simp [lookupBy, hx, hh]
      · have hhd : ¬ key h = id := fun hd => hx (hh ▸ hd)
        simp [lookupBy, hx, hh, hhd, ih]
    · by_cases hhd : key h = id
      · have hx : ¬ key x = id := fun hxx => hh (by rw [hhd, hxx])
        have hh2 : ¬ id = key x := fun hxx => hh (by rw [hhd, hxx])
        simp [lookupBy, hh, hh2, hhd, hx]
      · simp [lookupBy, hh, hhd, ih]

theorem lookupBy_append_one {α : Type} (key : α → String) (l : List α) (x : α) (id : String) :
    lookupBy key id (l ++ [x]) =
      match lookupBy key id l with
      | some y => some y
      | none => if key x = id then some x else none := by
  induction l with
  | nil => simp [lookupBy]
  | cons h t ih =>
    by_cases hhd : key h = id
    · simp [lookupBy, hhd]
    · simp [lookupBy, hhd, ih]

theorem lookupBy_none_of_absent {α : Type} (key : α → String) (l : List α) (id : String)
    (h : l.any (fun y => key y == id) = false) : lookupBy key id l = none := by
  induction l with
  | nil => rfl
  | cons y t ih =>
    simp only [List.any_cons, Bool.or_eq_false_iff] at h
    have hy : ¬ key y = id := by
      intro hh
      rw [hh] at h
      simp at h
    simp [lookupBy, hy, ih h.2]

theorem lookupBy_isSome_of_present {α : Type} (key : α → String) (l : List α) (id : String)
    (h : l.any (fun y => key y == id) = true) : (lookupBy key id l).isSome = true := by
  induction l with
  | nil => simp at h
  | cons y t ih =>
    by_cases hy : key y = id
    · simp [lookupBy, hy]
    · simp only [List.any_cons] at h
      have := Bool.or_eq_true_iff.mp h
      rcases this with hl | hr
      · exact absurd (by simpa using hl) hy
      · simp [lookupBy, hy, ih hr]

theorem lookupBy_upsertBy {α : Type} (key : α → String) (l : List α) (x : α) (id : String) :
    lookupBy key id (upsertBy key l x) = if key x = id then some x else lookupBy key id l := by
  unfold upsertBy
  by_cases hany : (l.any fun y => key y == key x) = true
  · rw [if_pos hany, lookupBy_map_replace]
    by_cases hx : key x = id
    · rw [if_pos hx, if_pos hx]
      have hs := lookupBy_isSome_of_present key l (key x) hany
      cases ho : lookupBy key (key x) l
      · rw [ho] at hs; simp at hs
      · rfl
    · rw [if_neg hx, if_neg hx]
  · have hany2 : (l.any fun y => key y == key x) = false := by
      cases hb : (l.any fun y => key y == key x)
      · rfl
      · exact absurd hb hany
    rw [if_neg hany, lookupBy_append_one]
    by_cases hx : key x = id
    · subst hx
      rw [lookupBy_none_of_absent key l (key x) hany2]
    · rw [if_neg hx]
      cases ho : lookupBy key id l
      · simp [hx]
      · simp [hx]

theorem lookupBy_upsertAllBy {α : Type} (key : α → String) :
    ∀ (f l : List α) (id : String),
      lookupBy key id (upsertAllBy key l f) =
        match lastWriteBy key f id with
        | some w => some w
        | none => lookupBy key id l := by
  intro f
  induction f with
  | nil => intro l id; rfl
  | cons u t ih =>
    intro l id
    simp only [upsertAllBy, List.foldl_cons]
    have step := ih (upsertBy key l u) id
    simp only [upsertAllBy] at step
    rw [step, lookupBy_upsertBy]
    cases hw : lastWriteBy key t id with
    | some w => simp [lastWriteBy, hw]
    | none =>
      by_cases hu : key u = id
      · simp [lastWriteBy, hw, hu]
      · simp [lastWriteBy, hw, hu]

theorem presentBy_upsertBy {α : Type} (key : α → String) (l : List α) (x : α) (id : String) :
    presentBy key (upsertBy key l x) id = (presentBy key l id || (key x == id)) := by
  unfold upsertBy presentBy
  by_cases hany : (l.any fun y => key y == key x) = true
  · rw [if_pos hany, List.any_map]
    have hcong : ((fun y => key y == id) ∘ fun y => if key y = key x then x else y) =
        fun y => key y == id := by
      funext y
      by_cases hy : key y = key x
      · simp [hy]
      · simp [hy]
    rw [hcong]
    by_cases hx : key x = id
    · subst hx
      rw [hany]
      simp
    · simp [beq_eq_false_iff_ne.mpr hx]
  · rw [if_neg hany, List.any_append]
    simp

theorem presentBy_upsertAllBy {α : Type} (key : α → String) :
    ∀ (f l : List α) (id : String),
      presentBy key (upsertAllBy key l f) id =
        (presentBy key l id || f.any (fun u => key u == id)) := by
  intro f
  induction f with
  | nil => intro l id; simp [upsertAllBy, presentBy]
  | cons u t ih =>
    intro l id
    simp only [upsertAllBy, List.foldl_cons]
    have step := ih (upsertBy key l u) id
    simp only [upsertAllBy] at step
    rw [step, presentBy_upsertBy]
    simp [List.any_cons, Bool.or_assoc]

theorem length_upsertAllBy_present {α : Type} (key : α → String) :
    ∀ (f l : List α), (∀ u ∈ f, presentBy key l (key u) = true) →
      (upsertAllBy key l f).length = l.length := by
  intro f
  induction f with
  | nil => intro l _; rfl
  | cons u t ih =>
    intro l h
    have hu : presentBy key l (key u) = true := h u (List.mem_cons_self u t)
    have hl : (upsertBy key l u).length = l.length := by
      unfold upsertBy
      rw [if_pos (show (l.any fun y => key y == key u) = true from hu)]
      simp
    have ht : ∀ v ∈ t, presentBy key (upsertBy key l u) (key v) = true := by
      intro v hv
      rw [presentBy_upsertBy, h v (List.mem_cons_of_mem u hv)]
      rfl
    simp only [upsertAllBy, List.foldl_cons]
    have step := ih (upsertBy key l u) ht
    simp only [upsertAllBy] at step
    rw [step, hl]

theorem present_of_mem {α : Type} (key : α → String) (f : List α) (u : α) (hu : u ∈ f) :
    f.any (fun v => key v == key u) = true :=
  List.any_eq_true.mpr ⟨u, hu, by simp⟩

theorem loadUsersList_spec :
    ∀ (us : List UserJSON) (db : DB),
      (loadUsersList db us).users =
        upsertAllBy (fun v => v.id) db.users (us.map userOfJSON) ∧
      (loadUsersList db us).channels = db.channels := by
  intro us
  induction us with
  | nil => intro db; exact ⟨rfl, rfl⟩
  | cons u t ih =>
    intro db
    simp only [loadUsersList, List.foldl_cons, List.map_cons, upsertAllBy]
    exact (ih (insertUser db (userOfJSON u)))

theorem loadChannelsList_spec :
    ∀ (cs : List Channel) (db : DB),
      (loadChannelsList db cs).channels =
        upsertAllBy (fun v => v.id) db.channels cs ∧
      (loadChannelsList db cs).users = db.users := by
  intro cs
  induction cs with
  | nil => intro db; exact ⟨rfl, rfl⟩
  | cons c t ih =>
    intro cs
    simp only [loadChannelsList, List.foldl_cons, upsertAllBy]
    exact (ih (insertChannel cs c))

/-- Claim C6: upserting Users and Channels is idempotent — inserting a
record with an existing identifier replaces it (never an error, and the
replacement is observable by identifier lookup), and ingesting the same
reference-data files twice leaves the User and Channel counts unchanged
and every record, looked up by identifier, equal to what the second
ingestion wrote. -/
theorem upsert_idempotent_refdata (db : DB) (us : List UserJSON) (cs : List Channel) :
    (ingestRefData (ingestRefData db us cs) us cs).users.length =
      (ingestRefData db us cs).users.length ∧
    (ingestRefData (ingestRefData db us cs) us cs).channels.length =
      (ingestRefData db us cs).channels.length ∧
    (∀ id, lookupBy (fun v => v.id) id (ingestRefData (ingestRefData db us cs) us cs).users =
      lookupBy (fun v => v.id) id (ingestRefData db us cs).users) ∧
    (∀ id, lookupBy (fun v => v.id) id (ingestRefData (ingestRefData db us cs) us cs).channels =
      lookupBy (fun v => v.id) id (ingestRefData db us cs).channels) ∧
    (∀ (d : DB) (u : User), lookupBy (fun v => v.id) u.id (insertUser d u).users = some u) ∧
    (∀ (d : DB) (c : Channel), lookupBy (fun v => v.id) c.id (insertChannel d c).channels = some c) := by
  have husers : ∀ X : DB, (ingestRefData X us cs).users =
      upsertAllBy (fun v : User => v.id) X.users (us.map userOfJSON) := by
    intro X
    unfold ingestRefData
    rw [(loadChannelsList_spec cs (loadUsersList X us)).2, (loadUsersList_spec us X).1]
  have hch : ∀ X : DB, (ingestRefData X us cs).channels =
      upsertAllBy (fun v : Channel => v.id) X.channels cs := by
    intro X
    unfold ingestRefData
    rw [(loadChannelsList_spec cs (loadUsersList X us)).1, (loadUsersList_spec us X).2]
  have hpresentU : ∀ u ∈ us.map userOfJSON,
      presentBy (fun v : User => v.id) (upsertAllBy (fun v : User => v.id) db.users (us.map userOfJSON)) u.id = true := by
    intro u hu
    rw [presentBy_upsertAllBy]
    rw [present_of_mem (fun v : User => v.id) (us.map userOfJSON) u hu]
    simp
  have hpresentC : ∀ c ∈ cs,
      presentBy (fun v : Channel => v.id) (upsertAllBy (fun v : Channel => v.id) db.channels cs) c.id = true := by
    intro c hc
    rw [presentBy_upsertAllBy]
    rw [present_of_mem (fun v : Channel => v.id) cs c hc]
    simp
  refine ⟨?_, ?_, ?_, ?_, ?_, ?_⟩
  · rw [husers, husers]
    exact length_upsertAllBy_present (fun v : User => v.id) (us.map userOfJSON) _ hpresentU
  · rw [hch, hch]
    exact length_upsertAllBy_present (fun v : Channel => v.id) cs _ hpresentC
  · intro id
    rw [husers, husers, lookupBy_upsertAllBy, lookupBy_upsertAllBy]
    cases hw : lastWriteBy (fun v : User => v.id) (us.map userOfJSON) id with
    | some w => rfl
    | none => rfl
  · intro id
    rw [hch, hch, lookupBy_upsertAllBy, lookupBy_upsertAllBy]
    cases hw : lastWriteBy (fun v : Channel => v.id) cs id with
    | some w => rfl
    | none => rfl
  · intro d u
    show lookupBy (fun v : User => v.id) u.id (upsertBy (fun v : User => v.id) d.users u) = some u
    rw [lookupBy_upsertBy]
    simp
  · intro d c
    show lookupBy (fun v : Channel => v.id) c.id (upsertBy (fun v : Channel => v.id) d.channels c) = some c
    rw [lookupBy_upsertBy]
    simp
